import Mathlib

/-!
Shallow embedding of `llama_docs_bot/indexing.py` (run-llama/llama_docs_bot).

The file under verification wires together:
  * `load_markdown_docs(filepath)` — a recursive directory read restricted to
    `.md` files, each handed to a `MarkdownDocsReader` extractor, with a fixed
    three-key LLM-metadata exclusion list set on every resulting document;
  * `load_docs()` — nine hard-coded category loads in a fixed order;
  * `create_query_engine()` — one `try` block loading all nine persisted
    indexes, one `except` block rebuilding and re-persisting all nine in
    order, then nine `QueryEngineTool`s with literal names and descriptions,
    handed in a fixed order to a `SubQuestionQueryEngine`.

External collaborators are modelled as parameters or by their interface
contract: the markdown extractor (`MarkdownDocsReader`, not part of the
analysed sources) is an arbitrary function from a file to documents; the
index engine (`VectorStoreIndex` / `load_index_from_storage` / `persist`) is
modelled by a round-trippable snapshot store, with index construction left
as a parameter so that construction failures are expressible.  Exceptions
are modelled with `Except`; the mutated on-disk state is threaded
explicitly, and is returned even on the error path (Python side effects
performed before a raise persist).
-/

/-- One source file: a name (with extension) and its raw content. -/
structure MFile where
  name : String
  content : String
deriving DecidableEq, Repr

/-- A filesystem subtree, as traversed recursively by `SimpleDirectoryReader`. -/
inductive FSEntry where
  | file (name : String) (content : String) : FSEntry
  | dir (name : String) (entries : List FSEntry) : FSEntry

/-- The filesystem of source documents: maps an input directory path to its
subtree, `none` when the path does not exist (the reader raises then). -/
def Fs : Type := String → Option FSEntry

/-- A parsed document: text, metadata envelope, and the list of metadata keys
excluded from the text forwarded to the LLM (`excluded_llm_metadata_keys`). -/
structure Doc where
  text : String
  metadata : List (String × String)
  excluded_llm_metadata_keys : List String
deriving DecidableEq, Repr

/-- The metadata that reaches the language model: the envelope minus the
excluded keys (model of `metadata_mode=LLM` in the index library). -/
def llmMetadata (d : Doc) : List (String × String) :=
  d.metadata.filter (fun kv => !(d.excluded_llm_metadata_keys.contains kv.1))

/-- The format-specific extractor (`MarkdownDocsReader.load_data`): from a
file name and its content, zero or more documents.  The reader itself is an
external collaborator of the analysed module, so it stays abstract. -/
def Extractor : Type := String → String → List Doc

/-- An index is determined by the documents it was built from
(`VectorStoreIndex` is opaque; the spec requires persistence to be
round-trippable, so the documents are the observable content). -/
def Index : Type := List Doc
deriving instance DecidableEq, Repr for Index

/-- Errors raised by the external collaborators and propagated by the code. -/
inductive LlamaError where
  | loadError (persist_dir : String) : LlamaError
  | buildError (msg : String) : LlamaError
  | loaderError (path : String) : LlamaError
deriving DecidableEq, Repr

/-- Index construction, `VectorStoreIndex.from_documents`: a parameter, so
that construction failure (an exception from the library) is expressible. -/
def Builder : Type := List Doc → Except LlamaError Index

/-- The contract model of `VectorStoreIndex.from_documents`: construction
succeeds on any document list (including the empty one) and the resulting
index is determined by those documents. -/
def fromDocumentsOk : Builder := fun docs => .ok docs

/-- The persisted-snapshot area of the disk: an association list from
persistence directory to the valid snapshot stored there; a directory that
is absent, empty or corrupt has no entry. -/
def Store : Type := List (String × Index)
deriving instance DecidableEq, Repr for Store

/-- Look up the loadable snapshot at a directory. -/
def lookupStore : Store → String → Option Index
  | [], _ => none
  | (d, i) :: rest, dir => if d = dir then some i else lookupStore rest dir

/-- `index.storage_context.persist(persist_dir=dir)`: write the snapshot,
overwriting whatever the directory held. -/
def persist (s : Store) (dir : String) (i : Index) : Store :=
  (dir, i) :: s

/-- `load_index_from_storage(StorageContext.from_defaults(persist_dir=dir))`:
returns the snapshot, raising when the directory is missing or unreadable. -/
def load_index_from_storage (s : Store) (dir : String) : Except LlamaError Index :=
  match lookupStore s dir with
  | some i => .ok i
  | none => .error (.loadError dir)

mutual

/-- All files under a subtree, in traversal order (recursive walk). -/
def collectFiles : FSEntry → List MFile
  | .file n c => [⟨n, c⟩]
  | .dir _ es => collectFilesList es

/-- All files under a forest of subtrees, in traversal order. -/
def collectFilesList : List FSEntry → List MFile
  | [] => []
  | e :: es => collectFiles e ++ collectFilesList es

end

/-- Whether a file name carries the `.md` extension
(`required_exts=[".md"]` of `SimpleDirectoryReader`). -/
def hasMdExt (name : String) : Bool :=
  name.toList.reverse.take 3 == ['d', 'm', '.']

/-- `load_markdown_docs(filepath)`: recursive read of the directory,
restricted to `.md` files (`required_exts=[".md"]`), each handed to the
extractor; every returned document gets
`excluded_llm_metadata_keys = ["File Name", "Content Type", "Header Path"]`.
Raises when the input directory does not exist. -/
def load_markdown_docs (extractor : Extractor) (fs : Fs) (filepath : String) :
    Except LlamaError (List Doc) :=
  match fs filepath with
  | none => .error (.loaderError filepath)
  | some tree =>
    let mdFiles := (collectFiles tree).filter (fun f => hasMdExt f.name)
    let documents := mdFiles.flatMap (fun f => extractor f.name f.content)
    .ok (documents.map
      (fun d => { d with
        excluded_llm_metadata_keys := ["File Name", "Content Type", "Header Path"] }))

/-- A category: persistence key, source path, and the literal tool name and
description from the code. -/
structure Category where
  key : String
  source_path : String
  tool_name : String
  tool_description : String
deriving DecidableEq, Repr

/-- The nine categories, in the fixed order of `load_docs` /
`create_query_engine`, with the literal strings of the source. -/
def categories : List Category :=
  [⟨"getting_started", "../docs/getting_started", "Getting Started",
    "Useful for answering questions about installing and running llama index, as well as basic explanations of how llama index works."⟩,
   ⟨"community", "../docs/community", "Community",
    "Useful for answering questions about integrations and other apps built by the community."⟩,
   ⟨"data", "../docs/core_modules/data_modules", "Data Modules",
    "Useful for answering questions about data loaders, documents, nodes, and index structures."⟩,
   ⟨"agent", "../docs/core_modules/agent_modules", "Agent Modules",
    "Useful for answering questions about data agents, agent configurations, and tools."⟩,
   ⟨"model", "../docs/core_modules/model_modules", "Model Modules",
    "Useful for answering questions about using and configuring LLMs, embedding modles, and prompts."⟩,
   ⟨"query", "../docs/core_modules/query_modules", "Query Modules",
    "Useful for answering questions about query engines, query configurations, and using various parts of the query engine pipeline."⟩,
   ⟨"supporting", "../docs/core_modules/supporting_modules", "Supporting Modules",
    "Useful for answering questions about supporting modules, such as callbacks, service context, and avaluation."⟩,
   ⟨"tutorials", "../docs/end_to_end_tutorials", "Tutorials",
    "Useful for answering questions about end-to-end tutorials and giving examples of specific use-cases."⟩,
   ⟨"contributing", "../docs/development", "Contributing",
    "Useful for answering questions about contributing to llama index, including how to contribute to the codebase and how to build documentation."⟩]

/-- The fixed persistence directory of a category: `./<category>_index`. -/
def persistDir (c : Category) : String :=
  "./" ++ c.key ++ "_index"

/-- `load_docs()`: the nine `load_markdown_docs` calls, in source order; the
first raising call propagates. -/
def load_docs (extractor : Extractor) (fs : Fs) :
    Except LlamaError (List (List Doc)) :=
  categories.mapM (fun c => load_markdown_docs extractor fs c.source_path)

/-- The `try` block of `create_query_engine`: the nine
`load_index_from_storage` calls in source order; any raise aborts the block. -/
def loadAll (store : Store) : Except LlamaError (List Index) :=
  categories.mapM (fun c => load_index_from_storage store (persistDir c))

/-- The `except` block: for each category in source order, build the index
from its documents and persist it immediately, before the next category's
construction; a raise propagates, but the persists already performed
remain on disk. -/
def buildAndPersist (b : Builder) :
    List (Category × List Doc) → Store → Store × Except LlamaError (List Index)
  | [], s => (s, .ok [])
  | (c, docs) :: rest, s =>
    match b docs with
    | .error e => (s, .error e)
    | .ok i =>
      match buildAndPersist b rest (persist s (persistDir c) i) with
      | (s', .error e) => (s', .error e)
      | (s', .ok is) => (s', .ok (i :: is))

/-- `QueryEngineTool.from_defaults(query_engine=index.as_query_engine(),
name=..., description=...)`: the tool delegates queries to its index. -/
structure QueryEngineTool where
  name : String
  description : String
  query_engine : Index
deriving DecidableEq, Repr

/-- The nine tool constructions: one per category, in source order, name and
description taken from the category's literals, delegating to its index. -/
def mkTools (indexes : List Index) : List QueryEngineTool :=
  (categories.zip indexes).map
    (fun ci => ⟨ci.1.tool_name, ci.1.tool_description, ci.2⟩)

/-- `SubQuestionQueryEngine.from_defaults(query_engine_tools=[...],
response_synthesizer=get_response_synthesizer(streaming=True),
verbose=False)`. -/
structure SubQuestionQueryEngine where
  query_engine_tools : List QueryEngineTool
  streaming : Bool
  verbose : Bool
deriving DecidableEq, Repr

/-- `create_query_engine()`: load all documents; try to load all nine
persisted indexes; on any exception rebuild and re-persist all nine; wrap
each index in its tool and hand the ordered tool list to the router.
Returns the final on-disk snapshot store together with the result. -/
def create_query_engine (extractor : Extractor) (fs : Fs) (b : Builder)
    (store : Store) : Store × Except LlamaError SubQuestionQueryEngine :=
  match load_docs extractor fs with
  | .error e => (store, .error e)
  | .ok docsList =>
    match loadAll store with
    | .ok indexes => (store, .ok ⟨mkTools indexes, true, false⟩)
    | .error _ =>
      match buildAndPersist b (categories.zip docsList) store with
      | (s', .error e) => (s', .error e)
      | (s', .ok indexes) => (s', .ok ⟨mkTools indexes, true, false⟩)

/-! ## Helper lemmas and concrete fixtures -/

theorem lookup_persist (s : Store) (dir d : String) (i : Index) :
    lookupStore (persist s dir i) d = if dir = d then some i else lookupStore s d := rfl

theorem exceptBind_ok {ε α β : Type} (x : Except ε α) (f : α → Except ε β) (b : β)
    (h : x >>= f = .ok b) : ∃ a, x = .ok a ∧ f a = .ok b := by
  cases x with
  | error e => simp [Bind.bind, Except.bind] at h
  | ok a => exact ⟨a, rfl, by simpa [Bind.bind, Except.bind] using h⟩

theorem mapM_except_ok_length {ε α β : Type} (f : α → Except ε β) :
    ∀ (l : List α) (out : List β), l.mapM f = .ok out → out.length = l.length := by
  intro l
  induction l with
  | nil =>
    intro out h
    simp only [List.mapM_nil] at h
    cases h
    rfl
  | cons a l ih =>
    intro out h
    rw [List.mapM_cons] at h
    obtain ⟨b, -, h⟩ := exceptBind_ok _ _ _ h
    obtain ⟨bs, hbs, h⟩ := exceptBind_ok _ _ _ h
    cases h
    simp [ih bs hbs]

/-- The persisted state left by a fully successful fallback pass, with the
nine freshly built indexes written to the nine fixed directories in order. -/
def persistNine (store : Store) (d1 d2 d3 d4 d5 d6 d7 d8 d9 : Index) : Store :=
  persist (persist (persist (persist (persist (persist (persist (persist (persist store
    "./getting_started_index" d1) "./community_index" d2) "./data_index" d3)
    "./agent_index" d4) "./model_index" d5) "./query_index" d6)
    "./supporting_index" d7) "./tutorials_index" d8) "./contributing_index" d9

theorem buildAndPersist_fromDocumentsOk (store : Store) (d1 d2 d3 d4 d5 d6 d7 d8 d9 : Index) :
    buildAndPersist fromDocumentsOk
        (categories.zip [d1, d2, d3, d4, d5, d6, d7, d8, d9]) store
      = (persistNine store d1 d2 d3 d4 d5 d6 d7 d8 d9,
         .ok [d1, d2, d3, d4, d5, d6, d7, d8, d9]) := rfl

theorem loadAll_persistNine (store : Store) (d1 d2 d3 d4 d5 d6 d7 d8 d9 : Index) :
    loadAll (persistNine store d1 d2 d3 d4 d5 d6 d7 d8 d9)
      = .ok [d1, d2, d3, d4, d5, d6, d7, d8, d9] := rfl

/-- The persisted state after the fallback has processed an initial segment of
categories: each successfully built index is written in order; the walk stops
at the first construction failure, leaving the state as already written. -/
def persistUpTo (b : Builder) : List (Category × List Doc) → Store → Store
  | [], s => s
  | (c, docs) :: rest, s =>
    match b docs with
    | .ok i => persistUpTo b rest (persist s (persistDir c) i)
    | .error _ => s

theorem buildAndPersist_fail (b : Builder) (c : Category) (d : List Doc) (e : LlamaError)
    (post : List (Category × List Doc)) (hfail : b d = .error e) :
    ∀ (pre : List (Category × List Doc)) (s : Store),
      (∀ p ∈ pre, ∃ i, b p.2 = .ok i) →
      buildAndPersist b (pre ++ (c, d) :: post) s = (persistUpTo b pre s, .error e) := by
  intro pre
  induction pre with
  | nil =>
    intro s _
    simp [buildAndPersist, persistUpTo, hfail]
  | cons p pre ih =>
    intro s hok
    obtain ⟨c0, d0⟩ := p
    obtain ⟨i, hi⟩ := hok (c0, d0) (List.mem_cons_self _ _)
    have hrest : ∀ q ∈ pre, ∃ j, b q.2 = .ok j :=
      fun q hq => hok q (List.mem_cons_of_mem _ hq)
    have hnext : buildAndPersist b (pre.append ((c, d) :: post)) (persist s (persistDir c0) i)
        = (persistUpTo b pre (persist s (persistDir c0) i), .error e) :=
      ih (persist s (persistDir c0) i) hrest
    simp only [List.cons_append, buildAndPersist, hi, hnext, persistUpTo]

theorem lookup_persistUpTo_not_mem (b : Builder) :
    ∀ (l : List (Category × List Doc)) (s : Store) (dir : String),
      dir ∉ l.map (fun p => persistDir p.1) →
      lookupStore (persistUpTo b l s) dir = lookupStore s dir := by
  intro l
  induction l with
  | nil => intro s dir _; rfl
  | cons p rest ih =>
    intro s dir h
    obtain ⟨c0, d0⟩ := p
    simp only [List.map_cons, List.mem_cons, not_or] at h
    cases hb : b d0 with
    | error e => simp [persistUpTo, hb]
    | ok i =>
      simp only [persistUpTo, hb]
      rw [ih _ dir h.2, lookup_persist, if_neg (fun hc => h.1 hc.symm)]

theorem lookup_persistUpTo_mem (b : Builder) :
    ∀ (l : List (Category × List Doc)) (s : Store),
      (l.map (fun p => persistDir p.1)).Nodup →
      (∀ p ∈ l, ∃ i, b p.2 = .ok i) →
      ∀ p ∈ l, ∀ i, b p.2 = .ok i →
        lookupStore (persistUpTo b l s) (persistDir p.1) = some i := by
  intro l
  induction l with
  | nil => intro s _ _ p hp; cases hp
  | cons q rest ih =>
    intro s hnodup hok p hp i hi
    obtain ⟨c0, d0⟩ := q
    simp only [List.map_cons, List.nodup_cons] at hnodup
    have hrest : ∀ p ∈ rest, ∃ j, b p.2 = .ok j :=
      fun p hp => hok p (List.mem_cons_of_mem _ hp)
    rcases List.mem_cons.mp hp with hq | hmem
    · cases hq
      simp only [persistUpTo, hi]
      rw [lookup_persistUpTo_not_mem b rest _ _ hnodup.1, lookup_persist, if_pos rfl]
    · obtain ⟨j, hj⟩ := hok (c0, d0) (List.mem_cons_self _ _)
      simp only [persistUpTo, hj]
      exact ih _ hnodup.2 hrest p hmem i hi

/-- A sample extractor: one document per file, carrying the three-key
metadata envelope. -/
def extr0 : Extractor := fun n c =>
  [⟨c, [("File Name", n), ("Content Type", "text"), ("Header Path", "/")], []⟩]

/-- A filesystem where every input directory exists and is empty. -/
def fsEmptyDirs : Fs := fun _ => some (.dir "d" [])

/-- A filesystem with no directories at all. -/
def fsNone : Fs := fun _ => none

/-- A filesystem whose getting-started directory holds one markdown file,
whose community directory holds two, with empty directories elsewhere. -/
def fsCounts : Fs := fun p =>
  if p = "../docs/getting_started" then some (.dir "d" [.file "a.md" "x"])
  else if p = "../docs/community" then
    some (.dir "d" [.file "b.md" "y", .file "c.md" "z"])
  else some (.dir "d" [])

/-- A sample document. -/
def doc0 : Doc := ⟨"t", [], []⟩

/-- A store with a valid snapshot only for the getting-started category. -/
def store0 : Store := [("./getting_started_index", [doc0])]

/-- A builder failing exactly on two-document lists. -/
def failOn2 : Builder :=
  fun ds => if ds.length = 2 then .error (.buildError "boom") else .ok ds

/-- A builder failing exactly on one-document lists. -/
def failOn1 : Builder :=
  fun ds => if ds.length = 1 then .error (.buildError "boom") else .ok ds

/-- The document loaded from `fsCounts`'s getting-started directory. -/
def docX : Doc :=
  ⟨"x", [("File Name", "a.md"), ("Content Type", "text"), ("Header Path", "/")],
   ["File Name", "Content Type", "Header Path"]⟩

/-- The first document loaded from `fsCounts`'s community directory. -/
def docY : Doc :=
  ⟨"y", [("File Name", "b.md"), ("Content Type", "text"), ("Header Path", "/")],
   ["File Name", "Content Type", "Header Path"]⟩

/-- The second document loaded from `fsCounts`'s community directory. -/
def docZ : Doc :=
  ⟨"z", [("File Name", "c.md"), ("Content Type", "text"), ("Header Path", "/")],
   ["File Name", "Content Type", "Header Path"]⟩

/-- The per-category documents loaded from `fsCounts` by `extr0`. -/
def dsCounts : List (List Doc) :=
  [[docX], [docY, docZ], [], [], [], [], [], [], []]

/-! ## Claims -/

/-- **C1**: if the persisted-snapshot load path raises (missing directory,
unreadable snapshot, ...), `create_query_engine` does not surface the error:
it builds one fresh index per category from the already-loaded documents,
persists each to its fixed directory `./<category>_index`, and leaves every
directory loadable (loading the nine directories afterwards yields exactly
the nine fresh indexes). -/
theorem c1_load_failure_fallback (extractor : Extractor) (fs : Fs) (store : Store)
    (d1 d2 d3 d4 d5 d6 d7 d8 d9 : List Doc) (err : LlamaError)
    (hdocs : load_docs extractor fs = .ok [d1, d2, d3, d4, d5, d6, d7, d8, d9])
    (hload : loadAll store = .error err) :
    (create_query_engine extractor fs fromDocumentsOk store).2
        = .ok ⟨mkTools [d1, d2, d3, d4, d5, d6, d7, d8, d9], true, false⟩
      ∧ (create_query_engine extractor fs fromDocumentsOk store).1
        = persistNine store d1 d2 d3 d4 d5 d6 d7 d8 d9
      ∧ loadAll (create_query_engine extractor fs fromDocumentsOk store).1
        = .ok [d1, d2, d3, d4, d5, d6, d7, d8, d9] := by
  have hb := buildAndPersist_fromDocumentsOk store d1 d2 d3 d4 d5 d6 d7 d8 d9
  refine ⟨?_, ?_, ?_⟩ <;>
    simp only [create_query_engine, hdocs, hload, hb, loadAll_persistNine]

/-- Witness for C1 at a concrete input: empty document directories, a store
holding a snapshot only for the getting-started category. -/
theorem c1_witness :
    (create_query_engine extr0 fsEmptyDirs fromDocumentsOk store0).2
        = .ok ⟨mkTools [[], [], [], [], [], [], [], [], []], true, false⟩
      ∧ (create_query_engine extr0 fsEmptyDirs fromDocumentsOk store0).1
        = persistNine store0 [] [] [] [] [] [] [] [] []
      ∧ loadAll (create_query_engine extr0 fsEmptyDirs fromDocumentsOk store0).1
        = .ok [[], [], [], [], [], [], [], [], []] :=
  c1_load_failure_fallback extr0 fsEmptyDirs store0 [] [] [] [] [] [] [] [] []
    (.loadError "./community_index") (by rfl) (by rfl)

/-- **C9**: a loader failure (missing source path) propagates out of
`create_query_engine` unchanged; since the result is independent of the
builder and the store is returned untouched, no persisted-index load, index
construction or persistence has taken place. -/
theorem c9_loader_failure (extractor : Extractor) (fs : Fs) (b : Builder)
    (store : Store) (e : LlamaError) (h : load_docs extractor fs = .error e) :
    create_query_engine extractor fs b store = (store, .error e) := by
  simp only [create_query_engine, h]

/-- Witness for C9: a filesystem with no source directories at all. -/
theorem c9_witness :
    create_query_engine extr0 fsNone fromDocumentsOk store0
      = (store0, .error (.loaderError "../docs/getting_started")) :=
  c9_loader_failure extr0 fsNone fromDocumentsOk store0
    (.loaderError "../docs/getting_started") (by rfl)

/-- **C4**: every document returned by `load_markdown_docs`, for any category
path, has its metadata-exclusion list set to exactly the three fixed keys
`"File Name"`, `"Content Type"`, `"Header Path"`, and none of these keys
survives into the metadata forwarded to the language model. -/
theorem c4_metadata_exclusion (extractor : Extractor) (fs : Fs) (p : String)
    (docs : List Doc) (h : load_markdown_docs extractor fs p = .ok docs) :
    ∀ d ∈ docs,
      d.excluded_llm_metadata_keys = ["File Name", "Content Type", "Header Path"]
        ∧ ∀ kv ∈ llmMetadata d, kv.1 ∉ ["File Name", "Content Type", "Header Path"] := by
  intro d hd
  rcases hfs : fs p with _ | tree
  · simp [load_markdown_docs, hfs] at h
  · simp only [load_markdown_docs, hfs] at h
    cases h
    obtain ⟨d0, -, rfl⟩ := List.mem_map.mp hd
    refine ⟨rfl, ?_⟩
    intro kv hkv
    simp only [llmMetadata, List.mem_filter, Bool.not_eq_eq_eq_not, Bool.not_true,
      List.contains, List.elem_eq_mem, decide_eq_false_iff_not] at hkv
    exact hkv.2

/-- Witness for C4 at a concrete input: the single document loaded from the
getting-started directory of `fsCounts`. -/
theorem c4_witness :
    docX.excluded_llm_metadata_keys = ["File Name", "Content Type", "Header Path"]
      ∧ ∀ kv ∈ llmMetadata docX, kv.1 ∉ ["File Name", "Content Type", "Header Path"] :=
  c4_metadata_exclusion extr0 fsCounts "../docs/getting_started" [docX]
    (by rfl) docX (by simp)

/-- **C8**: on an existing directory, `load_markdown_docs` succeeds, every
returned document derives from a file of the recursive traversal bearing the
`.md` extension, and a file of any other extension is silently skipped:
removing it from the directory leaves the result unchanged. -/
theorem c8_md_filter (extractor : Extractor) (fs : Fs) (p : String) (tree : FSEntry)
    (hfs : fs p = some tree) :
    (∃ docs, load_markdown_docs extractor fs p = .ok docs
        ∧ ∀ d ∈ docs, ∃ f ∈ collectFiles tree, hasMdExt f.name = true
            ∧ ∃ d0 ∈ extractor f.name f.content,
                d = { d0 with excluded_llm_metadata_keys :=
                        ["File Name", "Content Type", "Header Path"] })
      ∧ ∀ (nm fn fc : String) (es : List FSEntry), hasMdExt fn = false →
          load_markdown_docs extractor (fun _ => some (.dir nm (.file fn fc :: es))) p
            = load_markdown_docs extractor (fun _ => some (.dir nm es)) p := by
  constructor
  · refine ⟨(((collectFiles tree).filter (fun f => hasMdExt f.name)).flatMap
        (fun f => extractor f.name f.content)).map
        (fun d => { d with excluded_llm_metadata_keys :=
            ["File Name", "Content Type", "Header Path"] }), ?_, ?_⟩
    · simp only [load_markdown_docs, hfs]
    · intro d hd
      obtain ⟨d0, hd0, rfl⟩ := List.mem_map.mp hd
      obtain ⟨f, hf, hdf⟩ := List.mem_flatMap.mp hd0
      obtain ⟨hfmem, hfmd⟩ := List.mem_filter.mp hf
      exact ⟨f, hfmem, hfmd, d0, hdf, rfl⟩
  · intro nm fn fc es hmd
    simp only [load_markdown_docs, collectFiles, collectFilesList, List.filter_append,
      List.filter_cons, hmd]
    rfl

/-- A directory tree mixing `.md` files, a `.txt` file and a subdirectory. -/
def treeMixed : FSEntry :=
  .dir "d" [.file "a.md" "x", .file "b.txt" "y", .dir "sub" [.file "c.md" "z"]]

/-- A filesystem whose every directory is `treeMixed`. -/
def fsMixed : Fs := fun _ => some treeMixed

/-- Witness for C8 at a concrete input: a directory holding markdown files, a
text file, and a markdown file nested in a subdirectory. -/
theorem c8_witness :
    (∃ docs, load_markdown_docs extr0 fsMixed "../docs/getting_started" = .ok docs
        ∧ ∀ d ∈ docs, ∃ f ∈ collectFiles treeMixed, hasMdExt f.name = true
            ∧ ∃ d0 ∈ extr0 f.name f.content,
                d = { d0 with excluded_llm_metadata_keys :=
                        ["File Name", "Content Type", "Header Path"] })
      ∧ ∀ (nm fn fc : String) (es : List FSEntry), hasMdExt fn = false →
          load_markdown_docs extr0 (fun _ => some (.dir nm (.file fn fc :: es)))
              "../docs/getting_started"
            = load_markdown_docs extr0 (fun _ => some (.dir nm es))
                "../docs/getting_started" :=
  c8_md_filter extr0 fsMixed "../docs/getting_started" treeMixed (by rfl)

/-- **C2** fails on the code: the getting-started category's snapshot loads
successfully from `store0`, yet — because the community category's load
fails — the single shared `except` branch rebuilds everything, and the
getting-started directory is rewritten (it afterwards holds the freshly
built empty index instead of its previous snapshot). -/
theorem c2_counterexample :
    load_index_from_storage store0 "./getting_started_index" = .ok [doc0]
      ∧ lookupStore (create_query_engine extr0 fsEmptyDirs fromDocumentsOk store0).1
          "./getting_started_index" = some []
      ∧ lookupStore store0 "./getting_started_index" = some [doc0]
      ∧ ([] : Index) ≠ [doc0] := by
  exact ⟨rfl, by decide, rfl, by decide⟩

theorem lookup_persistNine_not_mem (store : Store) (d1 d2 d3 d4 d5 d6 d7 d8 d9 : Index)
    (dir : String) (h : dir ∉ categories.map persistDir) :
    lookupStore (persistNine store d1 d2 d3 d4 d5 d6 d7 d8 d9) dir
      = lookupStore store dir := by
  rw [show categories.map persistDir =
      ["./getting_started_index", "./community_index", "./data_index", "./agent_index",
       "./model_index", "./query_index", "./supporting_index", "./tutorials_index",
       "./contributing_index"] from rfl] at h
  simp only [List.mem_cons, List.not_mem_nil, or_false] at h
  push_neg at h
  obtain ⟨h1, h2, h3, h4, h5, h6, h7, h8, h9⟩ := h
  simp only [persistNine, lookup_persist]
  rw [if_neg (fun hc => h9 hc.symm), if_neg (fun hc => h8 hc.symm),
      if_neg (fun hc => h7 hc.symm), if_neg (fun hc => h6 hc.symm),
      if_neg (fun hc => h5 hc.symm), if_neg (fun hc => h4 hc.symm),
      if_neg (fun hc => h3 hc.symm), if_neg (fun hc => h2 hc.symm),
      if_neg (fun hc => h1 hc.symm)]

/-- **C2 (amended)**: reuse-or-rebuild is all-or-nothing across the nine
categories.  The reuse path is taken only when every category's snapshot
loads, and then nothing is written; if any category's load fails, every
category — including those whose snapshots loaded successfully — is rebuilt
and re-persisted, each to its own fixed directory, while directories outside
the nine per-category directories are never written. -/
theorem c2_all_or_nothing (extractor : Extractor) (fs : Fs) (store : Store)
    (d1 d2 d3 d4 d5 d6 d7 d8 d9 : List Doc)
    (hdocs : load_docs extractor fs = .ok [d1, d2, d3, d4, d5, d6, d7, d8, d9]) :
    (∀ idx, loadAll store = .ok idx →
        create_query_engine extractor fs fromDocumentsOk store
          = (store, .ok ⟨mkTools idx, true, false⟩))
      ∧ ∀ err, loadAll store = .error err →
          loadAll (create_query_engine extractor fs fromDocumentsOk store).1
              = .ok [d1, d2, d3, d4, d5, d6, d7, d8, d9]
            ∧ ∀ dir, dir ∉ categories.map persistDir →
                lookupStore (create_query_engine extractor fs fromDocumentsOk store).1 dir
                  = lookupStore store dir := by
  constructor
  · intro idx h
    simp only [create_query_engine, hdocs, h]
  · intro err h
    have hb := buildAndPersist_fromDocumentsOk store d1 d2 d3 d4 d5 d6 d7 d8 d9
    constructor
    · simp only [create_query_engine, hdocs, h, hb, loadAll_persistNine]
    · intro dir hdir
      simp only [create_query_engine, hdocs, h, hb]
      exact lookup_persistNine_not_mem store d1 d2 d3 d4 d5 d6 d7 d8 d9 dir hdir

/-- Witness for the amended C2 at a concrete input. -/
theorem c2_witness :
    (∀ idx, loadAll store0 = .ok idx →
        create_query_engine extr0 fsEmptyDirs fromDocumentsOk store0
          = (store0, .ok ⟨mkTools idx, true, false⟩))
      ∧ ∀ err, loadAll store0 = .error err →
          loadAll (create_query_engine extr0 fsEmptyDirs fromDocumentsOk store0).1
              = .ok [[], [], [], [], [], [], [], [], []]
            ∧ ∀ dir, dir ∉ categories.map persistDir →
                lookupStore (create_query_engine extr0 fsEmptyDirs fromDocumentsOk store0).1
                    dir
                  = lookupStore store0 dir :=
  c2_all_or_nothing extr0 fsEmptyDirs store0 [] [] [] [] [] [] [] [] [] (by rfl)

/-- **C3**: after a successful first call, a second call with unchanged
store and documents takes the reuse path: it returns the identical engine,
leaves the store untouched (no construction, no re-persist), and the engine
the two calls share is built from the indexes that load from the nine fixed
directories. -/
theorem c3_second_call_reuse (extractor : Extractor) (fs : Fs) (store s1 : Store)
    (d1 d2 d3 d4 d5 d6 d7 d8 d9 : List Doc) (eng : SubQuestionQueryEngine)
    (hdocs : load_docs extractor fs = .ok [d1, d2, d3, d4, d5, d6, d7, d8, d9])
    (h1 : create_query_engine extractor fs fromDocumentsOk store = (s1, .ok eng)) :
    create_query_engine extractor fs fromDocumentsOk s1 = (s1, .ok eng)
      ∧ ∃ idx, loadAll s1 = .ok idx ∧ eng = ⟨mkTools idx, true, false⟩ := by
  rcases hload : loadAll store with e | idx
  · have hb := buildAndPersist_fromDocumentsOk store d1 d2 d3 d4 d5 d6 d7 d8 d9
    simp only [create_query_engine, hdocs, hload, hb] at h1
    have hs1 : persistNine store d1 d2 d3 d4 d5 d6 d7 d8 d9 = s1 :=
      congrArg Prod.fst h1
    have heng : (Except.ok ⟨mkTools [d1, d2, d3, d4, d5, d6, d7, d8, d9], true, false⟩
        : Except LlamaError SubQuestionQueryEngine) = .ok eng :=
      congrArg Prod.snd h1
    injection heng with heng
    subst heng
    subst hs1
    refine ⟨?_, [d1, d2, d3, d4, d5, d6, d7, d8, d9],
      loadAll_persistNine store d1 d2 d3 d4 d5 d6 d7 d8 d9, rfl⟩
    simp only [create_query_engine, hdocs,
      loadAll_persistNine store d1 d2 d3 d4 d5 d6 d7 d8 d9]
  · simp only [create_query_engine, hdocs, hload] at h1
    have hs1 : store = s1 := congrArg Prod.fst h1
    have heng : (Except.ok ⟨mkTools idx, true, false⟩
        : Except LlamaError SubQuestionQueryEngine) = .ok eng :=
      congrArg Prod.snd h1
    injection heng with heng
    subst heng
    subst hs1
    refine ⟨?_, idx, hload, rfl⟩
    simp only [create_query_engine, hdocs, hload]

/-- Witness for C3 at a concrete input: the first call on `store0` rebuilds;
the second call on the resulting store reuses. -/
theorem c3_witness :
    create_query_engine extr0 fsEmptyDirs fromDocumentsOk
        (persistNine store0 [] [] [] [] [] [] [] [] [])
      = (persistNine store0 [] [] [] [] [] [] [] [] [],
         .ok ⟨mkTools [[], [], [], [], [], [], [], [], []], true, false⟩)
      ∧ ∃ idx, loadAll (persistNine store0 [] [] [] [] [] [] [] [] []) = .ok idx
          ∧ (⟨mkTools [[], [], [], [], [], [], [], [], []], true, false⟩
              : SubQuestionQueryEngine) = ⟨mkTools idx, true, false⟩ :=
  c3_second_call_reuse extr0 fsEmptyDirs store0
    (persistNine store0 [] [] [] [] [] [] [] [] [])
    [] [] [] [] [] [] [] [] []
    ⟨mkTools [[], [], [], [], [], [], [], [], []], true, false⟩
    (by rfl) (by rfl)

theorem buildAndPersist_ok_length (b : Builder) :
    ∀ (l : List (Category × List Doc)) (s s' : Store) (idx : List Index),
      buildAndPersist b l s = (s', .ok idx) → idx.length = l.length := by
  intro l
  induction l with
  | nil =>
    intro s s' idx h
    simp only [buildAndPersist, Prod.mk.injEq] at h
    obtain ⟨-, h2⟩ := h
    injection h2 with h2
    rw [← h2]
    rfl
  | cons p rest ih =>
    intro s s' idx h
    obtain ⟨c0, d0⟩ := p
    cases hb : b d0 with
    | error e => simp [buildAndPersist, hb, Prod.mk.injEq] at h
    | ok i =>
      simp only [buildAndPersist, hb] at h
      rcases hrec : buildAndPersist b rest (persist s (persistDir c0) i) with ⟨s2, r⟩
      rw [hrec] at h
      cases r with
      | error e => simp [Prod.mk.injEq] at h
      | ok is =>
        simp only [Prod.mk.injEq, Except.ok.injEq] at h
        rw [← h.2]
        simp [ih _ _ _ hrec]

theorem map_zip_fst {α β γ : Type} (g : α → γ) (l1 : List α) (l2 : List β)
    (h : l1.length ≤ l2.length) :
    (l1.zip l2).map (fun p => g p.1) = l1.map g := by
  rw [show (fun (p : α × β) => g p.1) = g ∘ Prod.fst from rfl, ← List.map_map,
      List.map_fst_zip _ _ h]

/-- **C5**: any successful run hands the router exactly one tool per
category, in the fixed registry order, with name and description verbatim
from the registry literals, each delegating to its category's index via the
uniform tool construction; the strings and order are run-independent. -/
theorem c5_tool_registry (extractor : Extractor) (fs : Fs) (b : Builder)
    (store s' : Store) (eng : SubQuestionQueryEngine)
    (h : create_query_engine extractor fs b store = (s', .ok eng)) :
    eng.query_engine_tools.map QueryEngineTool.name
        = ["Getting Started", "Community", "Data Modules", "Agent Modules",
           "Model Modules", "Query Modules", "Supporting Modules", "Tutorials",
           "Contributing"]
      ∧ eng.query_engine_tools.map QueryEngineTool.description
        = ["Useful for answering questions about installing and running llama index, as well as basic explanations of how llama index works.",
           "Useful for answering questions about integrations and other apps built by the community.",
           "Useful for answering questions about data loaders, documents, nodes, and index structures.",
           "Useful for answering questions about data agents, agent configurations, and tools.",
           "Useful for answering questions about using and configuring LLMs, embedding modles, and prompts.",
           "Useful for answering questions about query engines, query configurations, and using various parts of the query engine pipeline.",
           "Useful for answering questions about supporting modules, such as callbacks, service context, and avaluation.",
           "Useful for answering questions about end-to-end tutorials and giving examples of specific use-cases.",
           "Useful for answering questions about contributing to llama index, including how to contribute to the codebase and how to build documentation."]
      ∧ ∃ idx, idx.length = categories.length ∧ eng.query_engine_tools = mkTools idx := by
  suffices hs : ∃ idx, idx.length = categories.length ∧ eng.query_engine_tools = mkTools idx by
    obtain ⟨idx, hlen, htools⟩ := hs
    have hle : categories.length ≤ idx.length := le_of_eq hlen.symm
    refine ⟨?_, ?_, ⟨idx, hlen, htools⟩⟩
    · rw [htools,
        show (mkTools idx).map QueryEngineTool.name
            = (categories.zip idx).map (fun p => p.1.tool_name) by
          simp [mkTools, List.map_map],
        map_zip_fst Category.tool_name categories idx hle]
      rfl
    · rw [htools,
        show (mkTools idx).map QueryEngineTool.description
            = (categories.zip idx).map (fun p => p.1.tool_description) by
          simp [mkTools, List.map_map],
        map_zip_fst Category.tool_description categories idx hle]
      rfl
  rcases hdocs : load_docs extractor fs with e | ds
  · simp [create_query_engine, hdocs, Prod.mk.injEq] at h
  · have hdocs2 : categories.mapM (fun c => load_markdown_docs extractor fs c.source_path)
        = .ok ds := hdocs
    have hds : ds.length = categories.length :=
      mapM_except_ok_length (fun c => load_markdown_docs extractor fs c.source_path)
        categories ds hdocs2
    rcases hload : loadAll store with e | idx
    · rcases hbp : buildAndPersist b (categories.zip ds) store with ⟨s2, r⟩
      cases r with
      | error e2 => simp [create_query_engine, hdocs, hload, hbp, Prod.mk.injEq] at h
      | ok idx =>
        have hlen := buildAndPersist_ok_length b _ _ _ _ hbp
        simp only [create_query_engine, hdocs, hload, hbp] at h
        have heng : (Except.ok ⟨mkTools idx, true, false⟩
            : Except LlamaError SubQuestionQueryEngine) = .ok eng :=
          congrArg Prod.snd h
        injection heng with heng
        refine ⟨idx, ?_, by rw [← heng]⟩
        rw [hlen]
        simp [List.length_zip, hds]
    · have hload2 : categories.mapM (fun c => load_index_from_storage store (persistDir c))
          = .ok idx := hload
      have hlen : idx.length = categories.length :=
        mapM_except_ok_length (fun c => load_index_from_storage store (persistDir c))
          categories idx hload2
      simp only [create_query_engine, hdocs, hload] at h
      have heng : (Except.ok ⟨mkTools idx, true, false⟩
          : Except LlamaError SubQuestionQueryEngine) = .ok eng :=
        congrArg Prod.snd h
      injection heng with heng
      exact ⟨idx, hlen, by rw [← heng]⟩

/-- Witness for C5 at a concrete successful run. -/
theorem c5_witness :
    (⟨mkTools [[], [], [], [], [], [], [], [], []], true, false⟩
          : SubQuestionQueryEngine).query_engine_tools.map QueryEngineTool.name
        = ["Getting Started", "Community", "Data Modules", "Agent Modules",
           "Model Modules", "Query Modules", "Supporting Modules", "Tutorials",
           "Contributing"]
      ∧ (⟨mkTools [[], [], [], [], [], [], [], [], []], true, false⟩
          : SubQuestionQueryEngine).query_engine_tools.map QueryEngineTool.description
        = ["Useful for answering questions about installing and running llama index, as well as basic explanations of how llama index works.",
           "Useful for answering questions about integrations and other apps built by the community.",
           "Useful for answering questions about data loaders, documents, nodes, and index structures.",
           "Useful for answering questions about data agents, agent configurations, and tools.",
           "Useful for answering questions about using and configuring LLMs, embedding modles, and prompts.",
           "Useful for answering questions about query engines, query configurations, and using various parts of the query engine pipeline.",
           "Useful for answering questions about supporting modules, such as callbacks, service context, and avaluation.",
           "Useful for answering questions about end-to-end tutorials and giving examples of specific use-cases.",
           "Useful for answering questions about contributing to llama index, including how to contribute to the codebase and how to build documentation."]
      ∧ ∃ idx, idx.length = categories.length
          ∧ (⟨mkTools [[], [], [], [], [], [], [], [], []], true, false⟩
              : SubQuestionQueryEngine).query_engine_tools = mkTools idx :=
  c5_tool_registry extr0 fsEmptyDirs fromDocumentsOk []
    (persistNine [] [] [] [] [] [] [] [] [] [])
    ⟨mkTools [[], [], [], [], [], [], [], [], []], true, false⟩ (by rfl)

/-- **C6** fails on the code: two runs whose index construction fails at
*different* categories (the first run fails at getting-started with nothing
yet persisted; the second fails at community after getting-started was
persisted) surface the *identical* error value — the library's raw error —
so the propagated error does not identify the failing category. -/
theorem c6_counterexample :
    (create_query_engine extr0 fsCounts failOn1 []).2 = .error (.buildError "boom")
      ∧ (create_query_engine extr0 fsCounts failOn2 []).2 = .error (.buildError "boom")
      ∧ lookupStore (create_query_engine extr0 fsCounts failOn1 []).1
          "./getting_started_index" = none
      ∧ lookupStore (create_query_engine extr0 fsCounts failOn2 []).1
          "./getting_started_index" = some [docX] := by
  exact ⟨rfl, rfl, rfl, rfl⟩

/-- **C6 (amended)**: when the load path fails and a category's index
construction raises while all earlier categories built successfully, the
construction error propagates out of `create_query_engine` unswallowed and
unchanged — it is the underlying library error, which carries no category
identification. -/
theorem c6_error_propagation (extractor : Extractor) (fs : Fs) (b : Builder)
    (store : Store) (ds : List (List Doc)) (err e : LlamaError)
    (pre post : List (Category × List Doc)) (c : Category) (d : List Doc)
    (hdocs : load_docs extractor fs = .ok ds)
    (hload : loadAll store = .error err)
    (hzip : categories.zip ds = pre ++ (c, d) :: post)
    (hpre : ∀ p ∈ pre, ∃ i, b p.2 = .ok i)
    (hfail : b d = .error e) :
    (create_query_engine extractor fs b store).2 = .error e := by
  have hb := buildAndPersist_fail b c d e post hfail pre store hpre
  simp only [create_query_engine, hdocs, hload, hzip, hb]

/-- The getting-started category (first registry entry). -/
def catGS : Category := categories.get ⟨0, by decide⟩

/-- The community category (second registry entry). -/
def catCom : Category := categories.get ⟨1, by decide⟩

/-- The zipped category–documents prefix preceding the community category in
the `fsCounts` scenario. -/
def preCounts : List (Category × List Doc) := [(catGS, [docX])]

/-- The zipped category–documents pairs following the community category in
the `fsCounts` scenario. -/
def postCounts : List (Category × List Doc) := (categories.zip dsCounts).drop 2

/-- Witness for the amended C6 at a concrete input: construction fails at
the community category after getting-started built successfully. -/
theorem c6_witness :
    (create_query_engine extr0 fsCounts failOn2 []).2 = .error (.buildError "boom") :=
  c6_error_propagation extr0 fsCounts failOn2 [] dsCounts
    (.loadError "./getting_started_index") (.buildError "boom")
    preCounts postCounts catCom [docY, docZ]
    (by rfl) (by rfl) (by rfl)
    (by intro p hp
        rw [preCounts, List.mem_singleton] at hp
        subst hp
        exact ⟨[docX], rfl⟩)
    (by rfl)

/-- **C7**: an empty documents sequence is a valid input to the build path:
with every category's documents empty and the load path failing,
`create_query_engine` succeeds, the built empty indexes persist to the nine
fixed directories, each persisted empty index loads back, and a subsequent
run reuses them unchanged. -/
theorem c7_empty_documents (extractor : Extractor) (fs : Fs) (store : Store)
    (err : LlamaError)
    (hdocs : load_docs extractor fs = .ok [[], [], [], [], [], [], [], [], []])
    (hload : loadAll store = .error err) :
    (create_query_engine extractor fs fromDocumentsOk store).2
        = .ok ⟨mkTools [[], [], [], [], [], [], [], [], []], true, false⟩
      ∧ loadAll (create_query_engine extractor fs fromDocumentsOk store).1
        = .ok [[], [], [], [], [], [], [], [], []]
      ∧ create_query_engine extractor fs fromDocumentsOk
            (create_query_engine extractor fs fromDocumentsOk store).1
        = ((create_query_engine extractor fs fromDocumentsOk store).1,
           .ok ⟨mkTools [[], [], [], [], [], [], [], [], []], true, false⟩) := by
  have hb := buildAndPersist_fromDocumentsOk store [] [] [] [] [] [] [] [] []
  refine ⟨?_, ?_, ?_⟩ <;>
    simp only [create_query_engine, hdocs, hload, hb, loadAll_persistNine]

/-- Witness for C7 at a concrete input: empty source directories and an
empty persisted store. -/
theorem c7_witness :
    (create_query_engine extr0 fsEmptyDirs fromDocumentsOk []).2
        = .ok ⟨mkTools [[], [], [], [], [], [], [], [], []], true, false⟩
      ∧ loadAll (create_query_engine extr0 fsEmptyDirs fromDocumentsOk []).1
        = .ok [[], [], [], [], [], [], [], [], []]
      ∧ create_query_engine extr0 fsEmptyDirs fromDocumentsOk
            (create_query_engine extr0 fsEmptyDirs fromDocumentsOk []).1
        = ((create_query_engine extr0 fsEmptyDirs fromDocumentsOk []).1,
           .ok ⟨mkTools [[], [], [], [], [], [], [], [], []], true, false⟩) :=
  c7_empty_documents extr0 fsEmptyDirs [] (.loadError "./getting_started_index")
    (by rfl) (by rfl)

/-- **C10**: in the fallback branch, indexes are built and persisted
strictly in the fixed category order, each persisted immediately after its
own construction: if construction fails at some category, the run errors
with exactly that failure, the directories of all earlier categories have
already been overwritten with their freshly built indexes, and the failing
and later categories' directories are untouched. -/
theorem c10_fallback_order_persisted (extractor : Extractor) (fs : Fs) (b : Builder)
    (store : Store) (ds : List (List Doc)) (err e : LlamaError)
    (pre post : List (Category × List Doc)) (c : Category) (d : List Doc)
    (hdocs : load_docs extractor fs = .ok ds)
    (hload : loadAll store = .error err)
    (hzip : categories.zip ds = pre ++ (c, d) :: post)
    (hnodup : (pre.map (fun p => persistDir p.1)).Nodup)
    (hpre : ∀ p ∈ pre, ∃ i, b p.2 = .ok i)
    (hfail : b d = .error e) :
    create_query_engine extractor fs b store = (persistUpTo b pre store, .error e)
      ∧ (∀ p ∈ pre, ∀ i, b p.2 = .ok i →
          lookupStore (persistUpTo b pre store) (persistDir p.1) = some i)
      ∧ ∀ dir, dir ∉ pre.map (fun p => persistDir p.1) →
          lookupStore (persistUpTo b pre store) dir = lookupStore store dir := by
  refine ⟨?_, lookup_persistUpTo_mem b pre store hnodup hpre,
    fun dir hdir => lookup_persistUpTo_not_mem b pre store dir hdir⟩
  have hb := buildAndPersist_fail b c d e post hfail pre store hpre
  simp only [create_query_engine, hdocs, hload, hzip, hb]

/-- Witness for C10 at a concrete input: construction fails at the community
category; the getting-started directory already holds its fresh index, the
community directory is untouched. -/
theorem c10_witness :
    create_query_engine extr0 fsCounts failOn2 []
        = (persistUpTo failOn2 preCounts [], .error (.buildError "boom"))
      ∧ (∀ p ∈ preCounts, ∀ i, failOn2 p.2 = .ok i →
          lookupStore (persistUpTo failOn2 preCounts []) (persistDir p.1) = some i)
      ∧ ∀ dir, dir ∉ preCounts.map (fun p => persistDir p.1) →
          lookupStore (persistUpTo failOn2 preCounts []) dir = lookupStore [] dir :=
  c10_fallback_order_persisted extr0 fsCounts failOn2 [] dsCounts
    (.loadError "./getting_started_index") (.buildError "boom")
    preCounts postCounts catCom [docY, docZ]
    (by rfl) (by rfl) (by rfl) (by decide)
    (by intro p hp
        rw [preCounts, List.mem_singleton] at hp
        subst hp
        exact ⟨[docX], rfl⟩)
    (by rfl)
